import Mathlib

/-!
Shallow embedding of the liga-notifications push-dispatch pipeline.

The definitions below are translated from the TypeScript sources:
  - `src/helpers.ts`        (generatePayload, removeInvalidTokens,
                             getTokensByTags, groupTokensByLocale)
  - `src/routes/push-routes.ts`  (POST /send handler)
  - `src/routes/token-routes.ts` (POST /register upsert)
  - `src/workers.ts`        (job processor: batching and summary)
  - `src/apns.ts`           (sendAPNsBatch classification)

JavaScript dynamic values are modelled by `JSValue` where the untyped
behaviour matters (truthiness-based validation, filtering of non-string
entries); elsewhere the route-validated, typed shape of the data is used.
External collaborators (MongoDB, Redis/BullMQ, the APNs provider) are
modelled as explicit parameters: the database is a list of documents, the
queue is the list of jobs added, and the provider is a function from a
token to its per-token send result.
-/

set_option autoImplicit false

/-- JavaScript runtime values, as far as the helpers inspect them:
`undefined` models the JavaScript value of that name (the result of reading an absent property). -/
inductive JSValue where
  | null
  | undefined
  | bool (b : Bool)
  | num (n : Int)
  | str (s : String)
  | obj (fields : List (String × JSValue))

namespace JSValue

/-- JavaScript truthiness: `null`, `undefined`, `false`, `0` and `""` are
falsy; every object is truthy. -/
def truthy : JSValue → Bool
  | .null => false
  | .undefined => false
  | .bool b => b
  | .num n => n != 0
  | .str s => s != ""
  | .obj _ => true

/-- Property read `v[k]`: on an object, the first binding for `k`
(object field lists carry distinct keys); on anything else `undefined`. -/
def getField (v : JSValue) (k : String) : JSValue :=
  match v with
  | .obj fields =>
    match fields.lookup k with
    | some w => w
    | none => .undefined
  | _ => .undefined

/-- The test `typeof v === "object"`; note `typeof null === "object"`. -/
def typeofIsObject : JSValue → Bool
  | .null => true
  | .obj _ => true
  | _ => false

end JSValue

open JSValue

/-- The per-entry validation test of `generatePayload` (src/helpers.ts):
`!content || !content.title || !content.text`, i.e. the entry is rejected
iff it is falsy or its `title` or `text` property is falsy. -/
def contentInvalid (content : JSValue) : Bool :=
  !content.truthy || !(content.getField "title").truthy
    || !(content.getField "text").truthy

/-- First locale of the entries list whose content fails the per-entry
validation test, mirroring the `for..of Object.entries` loop that throws
at the first offending entry. -/
def firstInvalidLocale : List (String × JSValue) → Option String
  | [] => none
  | (l, c) :: rest =>
    if contentInvalid c then some l else firstInvalidLocale rest

/-- Error message thrown for a rejected locale entry, after the catch
block re-wraps it (src/helpers.ts `generatePayload`). -/
def invalidLocaleMsg (locale : String) : String :=
  "Failed to generate payload: Invalid content for locale " ++ locale
    ++ ": must have title and text"

/-- Error message for a non-object `localesContent` argument, after the
catch block re-wraps it. -/
def notAnObjectMsg : String :=
  "Failed to generate payload: Locales content must be an object"

/-- Model of `generatePayload` from src/helpers.ts, on JavaScript values.
The function declares a single parameter; the extra `metadata` argument
passed by the route is ignored at runtime. It checks
`!localesContent || typeof localesContent !== "object"`, walks
`Object.entries`, throws at the first entry failing the truthiness test,
and otherwise returns `{ locales: localesContent }` (no `metadata` key). -/
def generatePayload (localesContent : JSValue) : Except String JSValue :=
  if !localesContent.truthy || !localesContent.typeofIsObject then
    .error notAnObjectMsg
  else
    match localesContent with
    | .obj fields =>
      match firstInvalidLocale fields with
      | some locale => .error (invalidLocaleMsg locale)
      | none => .ok (.obj [("locales", localesContent)])
    | _ => .error notAnObjectMsg

/-- The filter test of `removeInvalidTokens` (src/helpers.ts):
`typeof token === "string" && token.length > 0`. -/
def isNonEmptyString : JSValue → Bool
  | .str s => s.length > 0
  | _ => false

/-- Model of `removeInvalidTokens` from src/helpers.ts. The collaborator
outcome of `Token.deleteMany` is a parameter (`deleteResult`): `ok n`
means the registry deleted `n` documents, `error e` means the delete
rejected. The first component of the result lists the argument of every
`deleteMany` call issued; the second is what the caller of
`removeInvalidTokens` observes (`ok` = the promise resolves). The
try/catch swallows a delete failure: both outcomes return `ok`. -/
def removeInvalidTokens (deleteResult : Except String Nat)
    (tokens : Option (List JSValue)) :
    List (List JSValue) × Except String Unit :=
  match tokens with
  | none => ([], .ok ())
  | some ts =>
    if ts.length = 0 then ([], .ok ())
    else
      let validTokens := ts.filter isNonEmptyString
      if validTokens.length = 0 then ([], .ok ())
      else
        match deleteResult with
        | .ok _ => ([validTokens], .ok ())
        | .error _ => ([validTokens], .ok ())

/-!
## Device registry and the dispatch route

`TokenDoc` is the mongoose `Token` document (src/models/token.ts).
The inputs of the POST /send handler are modelled at their declared,
route-validated types; the database is an explicit list of documents.
-/

/-- A device registration document (mongoose model `Token`). -/
structure TokenDoc where
  token : String
  platform : String
  tags : List String
  locale : String
  lastActive : Nat
deriving DecidableEq, Repr

/-- The mongo query `{ tags: { $in: tags } }`: a document matches when
its `tags` array contains at least one of the queried tags. -/
def matchesTags (tags : List String) (d : TokenDoc) : Bool :=
  d.tags.any (fun tg => tags.contains tg)

/-- Model of `getTokensByTags` (src/helpers.ts): rejects an empty tags
array, otherwise returns the matching documents in database order. -/
def getTokensByTags (db : List TokenDoc) (tags : List String) :
    Except String (List TokenDoc) :=
  if tags.length = 0 then
    .error "Failed to fetch tokens: Tags must be a non-empty array"
  else
    .ok (db.filter (matchesTags tags))

/-- The locale under which a document is grouped:
`t.locale || "en"` (src/helpers.ts `groupTokensByLocale`). -/
def effLocale (d : TokenDoc) : String :=
  if d.locale = "" then "en" else d.locale

/-- One step of building the grouped record: append `v` to the bucket of
key `k`, creating the bucket at the end when the key is new. JavaScript
objects enumerate string keys in insertion order, so the record is an
association list extended at the end. -/
def recAppend (grouped : List (String × List String)) (k : String)
    (v : String) : List (String × List String) :=
  if grouped.any (fun p => p.1 = k) then
    grouped.map (fun p => if p.1 = k then (p.1, p.2 ++ [v]) else p)
  else
    grouped ++ [(k, [v])]

/-- Model of `groupTokensByLocale` (src/helpers.ts): documents with a
falsy `token` are skipped; the rest are bucketed under `locale || "en"`
in traversal order. -/
def groupTokensByLocale (tokens : List TokenDoc) :
    List (String × List String) :=
  tokens.foldl
    (fun grouped t =>
      if t.token = "" then grouped
      else recAppend grouped (effLocale t) t.token)
    []

/-- Route-level locale content, after the handler has checked that
`title` and `text` are strings (src/routes/push-routes.ts). -/
structure LocaleContent where
  title : String
  text : String
deriving DecidableEq, Repr

/-- Free-form metadata object (`Record<string, any>` in the route,
restricted here to string values, which the pipeline never inspects). -/
abbrev Metad := List (String × String)

/-- The object returned by `generatePayload` as the route sees it:
`locales` is the validated map, and reading the absent `metadata`
property yields `undefined`, modelled as `none`. -/
structure GenPayload where
  locales : List (String × LocaleContent)
  metadata : Option Metad
deriving DecidableEq, Repr

/-- Typed view of `generatePayload` on route-validated content: the
entry test `!content || !content.title || !content.text` reduces to the
emptiness of `title`/`text`. The second argument supplied at the call
site (src/routes/push-routes.ts line 74) has no matching parameter in
the function declaration, so it is ignored and the result carries no
metadata. -/
def generatePayloadRoute (localesContent : List (String × LocaleContent))
    (_metadata : Option Metad) : Except String GenPayload :=
  match localesContent.find? (fun p => p.2.title = "" || p.2.text = "") with
  | some p => .error (invalidLocaleMsg p.1)
  | none => .ok { locales := localesContent, metadata := none }

/-- Payload stored in an enqueued job:
`{ ...payload.locales[locale], metadata: payload.metadata }`. -/
structure JobPayload where
  title : String
  text : String
  metadata : Option Metad
deriving DecidableEq, Repr

/-- A job added to the BullMQ `pushQueue`. -/
structure QueueJob where
  tokens : List String
  payload : JobPayload
deriving DecidableEq, Repr

/-- The JSON body of a successful POST /send response. `jobsAdded` and
`locales` are optional because the empty-result branch serialises an
object without those keys. -/
structure SendResponse where
  message : String
  totalUsers : Nat
  jobsAdded : Option Nat
  locales : Option (List String)
deriving DecidableEq, Repr

/-- Outcome of the POST /send handler: a 400 validation response, a 500
response from the catch block, or a 200 response together with the list
of jobs added to the queue (in enqueue order). -/
inductive SendResult where
  | badRequest (error : String)
  | serverError
  | ok (resp : SendResponse) (jobs : List QueueJob)
deriving DecidableEq, Repr

/-- Model of the POST /send handler (src/routes/push-routes.ts). Inputs
are the parsed body fields at their declared types, so the
`Array.isArray` / `typeof` checks that cannot fail at these types are
omitted; the checks on emptiness are kept. -/
def postSend (db : List TokenDoc) (tags : List String)
    (localesContent : List (String × LocaleContent))
    (metadata : Option Metad) : SendResult :=
  if tags.length = 0 then
    .badRequest "tags must be a non-empty array"
  else
    match localesContent.find? (fun p => p.2.title = "" || p.2.text = "") with
    | some p =>
      .badRequest ("localesContent." ++ p.1
        ++ " must have title and text properties")
    | none =>
      match getTokensByTags db tags with
      | .error _ => .serverError
      | .ok tokens =>
        if tokens.length = 0 then
          .ok { message := "No devices found for the specified tags",
                totalUsers := 0, jobsAdded := none, locales := none } []
        else
          let groupedTokens := groupTokensByLocale tokens
          match generatePayloadRoute localesContent metadata with
          | .error _ => .serverError
          | .ok payload =>
            let jobs := groupedTokens.filterMap (fun p =>
              match payload.locales.lookup p.1 with
              | some c =>
                some { tokens := p.2,
                       payload := { title := c.title, text := c.text,
                                    metadata := payload.metadata } }
              | none => none)
            .ok { message := "Push notification jobs queued successfully",
                  totalUsers := tokens.length,
                  jobsAdded := some jobs.length,
                  locales := some (groupedTokens.map Prod.fst) } jobs

/-!
## Registration (POST /register, src/routes/token-routes.ts)
-/

/-- The `token.trim()` call of the register route: strip whitespace
from both ends of the string (structural model of `String.trim`, which
is what the JavaScript method does on these inputs). -/
def jsTrim (s : String) : String :=
  ⟨((s.data.dropWhile Char.isWhitespace).reverse.dropWhile
      Char.isWhitespace).reverse⟩

/-- Model of `Token.findOneAndUpdate({token}, {...}, {upsert: true})`
under the unique index on `token`: replace the first document carrying
the token, or insert a new document when none exists. -/
def upsertByToken : List TokenDoc → TokenDoc → List TokenDoc
  | [], r => [r]
  | d :: ds, r =>
    if d.token = r.token then r :: ds else d :: upsertByToken ds r

/-- Validation `platform && !validPlatforms.includes(platform)` of the
register route: absent or falsy (empty) platform passes, otherwise the
value must be "ios" or "android". -/
def platformValid (platform : Option String) : Bool :=
  match platform with
  | none => true
  | some p => p = "" || p = "ios" || p = "android"

/-- Validation `locale && (typeof locale !== "string" || locale.length < 2)`
of the register route: absent or falsy locale passes, otherwise it needs
at least two characters. -/
def localeValid (locale : Option String) : Bool :=
  match locale with
  | none => true
  | some l => l = "" || l.length ≥ 2

/-- The document written by the register upsert: trimmed token and the
defaults `platform || "ios"`, `tags || []`, `locale || "en"`. -/
def registrationDoc (now : Nat) (token : String) (platform : Option String)
    (tags : Option (List String)) (locale : Option String) : TokenDoc :=
  { token := jsTrim token,
    platform :=
      match platform with
      | some p => if p = "" then "ios" else p
      | none => "ios",
    tags := tags.getD [],
    locale :=
      match locale with
      | some l => if l = "" then "en" else l
      | none => "en",
    lastActive := now }

/-- Model of the POST /register handler (src/routes/token-routes.ts):
validates the body, then upserts the document keyed on the trimmed
token. The result carries the new database and the stored document. -/
def registerToken (now : Nat) (db : List TokenDoc) (token : Option String)
    (platform : Option String) (tags : Option (List String))
    (locale : Option String) : Except String (List TokenDoc × TokenDoc) :=
  match token with
  | none => .error "token is required and must be a non-empty string"
  | some t =>
    if t = "" || (jsTrim t).length = 0 then
      .error "token is required and must be a non-empty string"
    else if !platformValid platform then
      .error "platform must be one of: ios, android"
    else if !localeValid locale then
      .error "locale must be a valid language code (e.g., en, es)"
    else
      let doc := registrationDoc now t platform tags locale
      .ok (upsertByToken db doc, doc)

/-!
## Worker job processor (src/workers.ts)
-/

/-- The fixed batch size of the worker (`const batchSize = 100`). -/
def batchSize : Nat := 100

/-- The batches visited by `for (let i = 0; i < tokens.length; i += batchSize)`
with `tokens.slice(i, i + batchSize)`: consecutive slices of `batchSize`
tokens, the last one possibly shorter. -/
def chunks : List String → List (List String)
  | [] => []
  | x :: xs =>
    ((x :: xs).take batchSize) :: chunks ((x :: xs).drop batchSize)
termination_by l => l.length
decreasing_by simp [batchSize]; omega

/-- Result of one job summarised by the worker. -/
structure JobSummary where
  totalTokens : Nat
  successfulBatches : Nat
  failedBatches : Nat
  invalidTokens : Nat
deriving DecidableEq, Repr

/-- The batch loop of the worker: `sendBatch i b` is the outcome of the
gateway call for the i-th batch `b` — `ok` with the batch's invalid
tokens, or `error` when `sendAPNsBatch` threw. Returns the accumulated
invalid tokens (in batch order) and the counts of successful and failed
batches. A failed batch is counted and the loop continues. -/
def runBatches (sendBatch : Nat → List String → Except Unit (List String)) :
    Nat → List (List String) → List String × Nat × Nat
  | _, [] => ([], 0, 0)
  | i, b :: rest =>
    let r := runBatches sendBatch (i + 1) rest
    match sendBatch i b with
    | .ok inv => (inv ++ r.1, r.2.1 + 1, r.2.2)
    | .error _ => (r.1, r.2.1, r.2.2 + 1)

/-- Model of the worker processor for one job (src/workers.ts): validate
the job data, run the batches, and either throw when every batch failed
or return the `JobSummary`. A thrown error marks the job failed (the
processor re-throws from its catch block). -/
def processJob (sendBatch : Nat → List String → Except Unit (List String))
    (tokens : List String) (payload : JobPayload) :
    Except String JobSummary :=
  if tokens.length = 0 then
    .error "Job data must contain a non-empty tokens array"
  else if payload.title = "" || payload.text = "" then
    .error "Job data must contain payload with title and text"
  else
    let r := runBatches sendBatch 0 (chunks tokens)
    let summary : JobSummary :=
      { totalTokens := tokens.length,
        successfulBatches := r.2.1,
        failedBatches := r.2.2,
        invalidTokens := r.1.length }
    if 0 < r.2.2 ∧ r.2.1 = 0 then
      .error ("All " ++ toString r.2.2 ++ " batches failed to process")
    else
      .ok summary

/-!
## APNs batch client (src/apns.ts)
-/

/-- One entry of the `failed` array of an `apn` provider response. -/
structure ApnsFailure where
  status : String
  device : String
deriving DecidableEq, Repr

/-- An `apn` provider response for a single-token send: the send
succeeded iff `failed` is empty. -/
structure ApnsResult where
  failed : List ApnsFailure
deriving DecidableEq, Repr

/-- Model of `sendAPNsBatch` (src/apns.ts). `provider t` is the outcome
of `apnProvider.send(note, t)`: a response, or `error` when the send
rejected (that rejection is caught per token and replaced by a
synthesised status "500" failure). A falsy or non-string token is
replaced by a synthesised status "400" failure without calling the
provider. The returned list collects, in token order, `tokens[i]` once
for every failure entry of result `i` whose status is "410" or "400". -/
def sendAPNsBatch (provider : String → Except Unit ApnsResult)
    (bundleId : String) (tokens : List String) (payload : JobPayload) :
    Except String (List String) :=
  if tokens.length = 0 then
    .error "Failed to send APNs batch: Tokens must be a non-empty array"
  else if payload.title = "" || payload.text = "" then
    .error "Failed to send APNs batch: Payload must have title and text properties"
  else if bundleId = "" then
    .error "Failed to send APNs batch: APN_BUNDLE_ID environment variable is required"
  else
    let results := tokens.map (fun token =>
      if token = "" then ApnsResult.mk [{ status := "400", device := token }]
      else
        match provider token with
        | .ok r => r
        | .error _ => ApnsResult.mk [{ status := "500", device := token }])
    .ok ((tokens.zip results).foldl
      (fun acc p =>
        acc ++ p.2.failed.filterMap (fun f =>
          if f.status = "410" || f.status = "400" then some p.1 else none))
      [])

/-- Key set of a JavaScript object built by repeated
`if (!grouped[k]) grouped[k] = []` inserts: each key is appended the
first time it is seen. -/
def addKey (ks : List String) (k : String) : List String :=
  if k ∈ ks then ks else ks ++ [k]

/-- Folding `addKey` over a list of keys starting from `init`. -/
def seenFold (init : List String) (ls : List String) : List String :=
  ls.foldl addKey init

/-!
## Lemmas
-/

theorem firstInvalidLocale_eq_none_iff (fields : List (String × JSValue)) :
    firstInvalidLocale fields = none ↔
      ∀ p ∈ fields, contentInvalid p.2 = false := by
  induction fields with
  | nil => simp [firstInvalidLocale]
  | cons p rest ih =>
    obtain ⟨l, c⟩ := p
    by_cases hc : contentInvalid c
    · simp [firstInvalidLocale, hc]
    · simp only [Bool.not_eq_true] at hc
      simp [firstInvalidLocale, hc, ih]

theorem firstInvalidLocale_some (fields : List (String × JSValue))
    (l : String) (h : firstInvalidLocale fields = some l) :
    ∃ c, (l, c) ∈ fields ∧ contentInvalid c = true := by
  induction fields with
  | nil => simp [firstInvalidLocale] at h
  | cons p rest ih =>
    obtain ⟨l', c⟩ := p
    by_cases hc : contentInvalid c
    · simp [firstInvalidLocale, hc] at h
      exact ⟨c, by simp [h], hc⟩
    · simp only [Bool.not_eq_true] at hc
      simp [firstInvalidLocale, hc] at h
      obtain ⟨c', hmem, hinv⟩ := ih h
      exact ⟨c', by simp [hmem], hinv⟩

/-!
## Claim C5 — generatePayload validation
-/

/-- Claim C5, counterexample. The claim states that `generatePayload`
fails with a validation error whenever some locale entry lacks `title`
or `text` as non-empty strings. In the entry below the `title` property
is the number `7` — not a string at all — yet `generatePayload`
succeeds, because the source only tests truthiness
(`!content || !content.title || !content.text`), and `7` is truthy. -/
theorem generatePayload_accepts_numeric_title :
    generatePayload (JSValue.obj [("en",
        JSValue.obj [("title", JSValue.num 7), ("text", JSValue.str "hi")])])
      = Except.ok (JSValue.obj [("locales", JSValue.obj [("en",
          JSValue.obj [("title", JSValue.num 7),
            ("text", JSValue.str "hi")])])])
    ∧ JSValue.getField
        (JSValue.obj [("title", JSValue.num 7), ("text", JSValue.str "hi")])
        "title" = JSValue.num 7 :=
  ⟨rfl, rfl⟩

/-- Claim C5, amended: `generatePayload` rejects any argument that is
falsy or not of `typeof` "object" with the not-an-object error; on an
object it succeeds returning `{ locales }` iff every entry passes the
truthiness test (`contentInvalid` is false: the entry and its `title`
and `text` properties are truthy — non-empty strings qualify, but so do
other truthy values such as numbers); otherwise it fails with an error
naming the first offending locale. It is a pure function of its
argument. -/
theorem generatePayload_spec (fields : List (String × JSValue)) :
    (generatePayload (JSValue.obj fields)
        = Except.ok (JSValue.obj [("locales", JSValue.obj fields)])
      ↔ ∀ p ∈ fields, contentInvalid p.2 = false)
    ∧ (∀ l, firstInvalidLocale fields = some l →
        (∃ c, (l, c) ∈ fields ∧ contentInvalid c = true)
        ∧ generatePayload (JSValue.obj fields)
            = Except.error (invalidLocaleMsg l))
    ∧ (∀ v : JSValue, v.truthy = false ∨ v.typeofIsObject = false →
        generatePayload v = Except.error notAnObjectMsg) := by
  refine ⟨?_, ?_, ?_⟩
  · rw [← firstInvalidLocale_eq_none_iff]
    constructor
    · intro h
      cases hf : firstInvalidLocale fields with
      | none => rfl
      | some l => simp [generatePayload, truthy, typeofIsObject, hf] at h
    · intro h
      simp [generatePayload, truthy, typeofIsObject, h]
  · intro l hl
    refine ⟨firstInvalidLocale_some fields l hl, ?_⟩
    simp [generatePayload, truthy, typeofIsObject, hl]
  · intro v hv
    cases hv with
    | inl h => simp [generatePayload, h]
    | inr h =>
      cases v with
      | obj fields => simp [typeofIsObject] at h
      | null => simp [generatePayload, truthy]
      | undefined => simp [generatePayload, truthy]
      | bool b => simp [generatePayload, typeofIsObject, h]
      | num n => simp [generatePayload, typeofIsObject, h]
      | str s => simp [generatePayload, typeofIsObject, h]

/-- Witness for `generatePayload_spec`: a concrete valid map is
accepted, and a concrete map whose first entry lacks `text` is rejected
with an error naming that locale. -/
theorem generatePayload_spec_witness :
    generatePayload (JSValue.obj [("en",
        JSValue.obj [("title", JSValue.str "T"), ("text", JSValue.str "B")])])
      = Except.ok (JSValue.obj [("locales", JSValue.obj [("en",
          JSValue.obj [("title", JSValue.str "T"),
            ("text", JSValue.str "B")])])])
    ∧ generatePayload (JSValue.obj [("es", JSValue.obj [("title", JSValue.str "T")])])
      = Except.error (invalidLocaleMsg "es") :=
  ⟨(generatePayload_spec _).1.mpr (by
      intro p hp
      simp only [List.mem_singleton] at hp
      subst hp
      rfl),
   ((generatePayload_spec [("es", JSValue.obj [("title", JSValue.str "T")])]).2.1
      "es" rfl).2⟩

/-!
## Claim C7 — removeInvalidTokens
-/

/-- Claim C7, counterexample. The claim states that
`removeInvalidTokens` deduplicates the token list before issuing the
removal. On the input `["a", "a"]` the removal call is issued with the
list `["a", "a"]` unchanged: the source only filters
(`tokens.filter(t => typeof t === "string" && t.length > 0)`) and never
deduplicates. -/
theorem removeInvalidTokens_keeps_duplicates :
    removeInvalidTokens (Except.ok 2)
        (some [JSValue.str "a", JSValue.str "a"])
      = ([[JSValue.str "a", JSValue.str "a"]], Except.ok ())
    ∧ ¬ List.Nodup [JSValue.str "a", JSValue.str "a"] :=
  ⟨rfl, fun h => (List.nodup_cons.mp h).1 (List.mem_singleton.mpr rfl)⟩

/-- Claim C7, amended: `removeInvalidTokens` never rejects, even when
the underlying `deleteMany` fails (the catch block swallows the error);
on missing or empty input it issues no removal call; and the removal,
when issued, receives the input list with the entries that are not
non-empty strings filtered out — duplicates are NOT removed (the
set-based `$in` deletion makes them harmless). -/
theorem removeInvalidTokens_spec (deleteResult : Except String Nat)
    (tokens : Option (List JSValue)) :
    (removeInvalidTokens deleteResult tokens).2 = Except.ok ()
    ∧ (tokens = none ∨ tokens = some [] →
        (removeInvalidTokens deleteResult tokens).1 = [])
    ∧ (∀ ts, tokens = some ts →
        (removeInvalidTokens deleteResult tokens).1 =
          if (ts.filter isNonEmptyString).isEmpty then []
          else [ts.filter isNonEmptyString]) := by
  refine ⟨?_, ?_, ?_⟩
  · cases tokens with
    | none => rfl
    | some ts =>
      simp only [removeInvalidTokens]
      split
      · rfl
      · split
        · rfl
        · cases deleteResult <;> rfl
  · rintro (rfl | rfl) <;> rfl
  · rintro ts rfl
    simp only [removeInvalidTokens]
    by_cases h0 : ts.length = 0
    · rw [List.length_eq_zero] at h0
      subst h0
      simp
    · simp only [if_neg h0]
      by_cases hv : (ts.filter isNonEmptyString).length = 0
      · rw [List.length_eq_zero] at hv
        simp [hv]
      · have hv' : ¬ ts.filter isNonEmptyString = [] := by
          rw [← List.length_eq_zero]
          exact hv
        have hne : ¬ (ts.filter isNonEmptyString).isEmpty := by
          rw [List.isEmpty_iff]
          exact hv'
        simp only [if_neg hv, if_neg hne]
        cases deleteResult <;> rfl

/-- Witness for `removeInvalidTokens_spec`: with a failing delete and a
list holding a number, an empty string and a real token, no error
escapes and the single removal call carries exactly the real token. -/
theorem removeInvalidTokens_spec_witness :
    (removeInvalidTokens (Except.error "boom")
        (some [JSValue.num 3, JSValue.str "", JSValue.str "tok"])).2
      = Except.ok ()
    ∧ (removeInvalidTokens (Except.error "boom")
        (some [JSValue.num 3, JSValue.str "", JSValue.str "tok"])).1
      = [[JSValue.str "tok"]] := by
  have h := removeInvalidTokens_spec (Except.error "boom")
    (some [JSValue.num 3, JSValue.str "", JSValue.str "tok"])
  refine ⟨h.1, ?_⟩
  rw [h.2.2 _ rfl]
  rfl

/-!
## Lemmas about the worker batch loop
-/

theorem chunks_nil : chunks [] = [] := by
  simp [chunks]

theorem chunks_of_short (l : List String) (h0 : l ≠ [])
    (h : l.length ≤ batchSize) : chunks l = [l] := by
  match l, h0 with
  | x :: xs, _ =>
    simp only [chunks]
    rw [List.take_of_length_le h, List.drop_eq_nil_of_le h, chunks_nil]

theorem chunks_flatten : ∀ l : List String, (chunks l).flatten = l
  | [] => by simp [chunks]
  | x :: xs => by
    simp only [chunks, List.flatten_cons]
    rw [chunks_flatten ((x :: xs).drop batchSize)]
    exact List.take_append_drop batchSize (x :: xs)
termination_by l => l.length
decreasing_by simp [batchSize]; omega

theorem chunks_length :
    ∀ l : List String,
      (chunks l).length = (l.length + (batchSize - 1)) / batchSize
  | [] => by simp [chunks, batchSize]
  | x :: xs => by
    simp only [chunks, List.length_cons]
    rw [chunks_length ((x :: xs).drop batchSize)]
    simp only [List.length_drop, List.length_cons, batchSize]
    omega
termination_by l => l.length
decreasing_by simp [batchSize]; omega

theorem chunks_mem :
    ∀ l : List String, ∀ b ∈ chunks l, b ≠ [] ∧ b.length ≤ batchSize
  | [] => by simp [chunks]
  | x :: xs => by
    intro b hb
    simp only [chunks] at hb
    rcases List.mem_cons.mp hb with h | h
    · subst h
      constructor
      · intro hnil
        have := congrArg List.length hnil
        simp [List.length_take, batchSize] at this
      · simp only [List.length_take]
        exact min_le_left _ _
    · exact chunks_mem ((x :: xs).drop batchSize) b h
termination_by l => l.length
decreasing_by simp [batchSize]; omega

theorem chunks_eq_nil_iff (l : List String) : chunks l = [] ↔ l = [] := by
  cases l with
  | nil => simp [chunks]
  | cons x xs => simp [chunks]

theorem chunks_dropLast :
    ∀ l : List String, ∀ b ∈ (chunks l).dropLast, b.length = batchSize
  | [] => by simp [chunks]
  | x :: xs => by
    intro b hb
    simp only [chunks] at hb
    by_cases hd : (x :: xs).drop batchSize = []
    · rw [hd, chunks_nil] at hb
      simp at hb
    · have hrest : chunks ((x :: xs).drop batchSize) ≠ [] := by
        rw [ne_eq, chunks_eq_nil_iff]
        exact hd
      rw [List.dropLast_cons_of_ne_nil hrest] at hb
      rcases List.mem_cons.mp hb with h | h
      · subst h
        have hlong : batchSize ≤ xs.length + 1 := by
          by_contra hlt
          push_neg at hlt
          refine hd (List.drop_eq_nil_of_le ?_)
          simp only [List.length_cons]
          omega
        simp only [List.length_take, List.length_cons]
        omega
      · exact chunks_dropLast ((x :: xs).drop batchSize) b h
termination_by l => l.length
decreasing_by simp [batchSize]; omega

theorem runBatches_counts
    (sendBatch : Nat → List String → Except Unit (List String)) :
    ∀ (i : Nat) (bs : List (List String)),
      (runBatches sendBatch i bs).2.1 + (runBatches sendBatch i bs).2.2
        = bs.length := by
  intro i bs
  induction bs generalizing i with
  | nil => rfl
  | cons b rest ih =>
    simp only [runBatches]
    have h := ih (i + 1)
    cases sendBatch i b with
    | ok inv =>
      dsimp only
      simp only [List.length_cons]
      omega
    | error e =>
      dsimp only
      simp only [List.length_cons]
      omega

theorem processJob_single_batch
    (sendBatch : Nat → List String → Except Unit (List String))
    (tokens : List String) (payload : JobPayload)
    (h0 : tokens ≠ []) (hlen : tokens.length ≤ batchSize)
    (h1 : payload.title ≠ "") (h2 : payload.text ≠ "") :
    processJob sendBatch tokens payload =
      match sendBatch 0 tokens with
      | .ok inv => .ok ⟨tokens.length, 1, 0, inv.length⟩
      | .error _ => .error "All 1 batches failed to process" := by
  have hlen0 : ¬ tokens.length = 0 := by
    simpa [List.length_eq_zero] using h0
  simp only [processJob, chunks_of_short tokens h0 hlen, if_neg hlen0]
  rw [if_neg (by simp [h1, h2])]
  cases hsb : sendBatch 0 tokens with
  | ok inv => simp [runBatches, hsb]
  | error e =>
    simp only [runBatches, hsb]
    rw [if_pos (by norm_num)]
    rfl

/-!
## Claim C2 — worker partial-failure policy
-/

/-- Claim C2: for a job with a non-empty token list and a payload with
title and text, the processor throws (marking the job failed and
eligible for queue retry) exactly when every batch failed
(`failedBatches > 0` and `successfulBatches = 0`); as soon as one batch
succeeded it returns the `JobSummary` with the total token count, the
two batch counts and the number of accumulated invalid tokens — even if
other batches failed. -/
theorem processJob_failure_policy
    (sendBatch : Nat → List String → Except Unit (List String))
    (tokens : List String) (payload : JobPayload)
    (htok : tokens ≠ []) (htitle : payload.title ≠ "")
    (htext : payload.text ≠ "") :
    ((0 < (runBatches sendBatch 0 (chunks tokens)).2.2
        ∧ (runBatches sendBatch 0 (chunks tokens)).2.1 = 0) →
      processJob sendBatch tokens payload =
        Except.error ("All "
          ++ toString (runBatches sendBatch 0 (chunks tokens)).2.2
          ++ " batches failed to process"))
    ∧ (0 < (runBatches sendBatch 0 (chunks tokens)).2.1 →
      processJob sendBatch tokens payload = Except.ok
        { totalTokens := tokens.length,
          successfulBatches := (runBatches sendBatch 0 (chunks tokens)).2.1,
          failedBatches := (runBatches sendBatch 0 (chunks tokens)).2.2,
          invalidTokens := (runBatches sendBatch 0 (chunks tokens)).1.length }) := by
  have hlen0 : ¬ tokens.length = 0 := by
    simpa [List.length_eq_zero] using htok
  constructor
  · intro hall
    simp only [processJob, if_neg hlen0]
    rw [if_neg (by simp [htitle, htext]), if_pos hall]
  · intro hpos
    simp only [processJob, if_neg hlen0]
    rw [if_neg (by simp [htitle, htext]), if_neg ?_]
    rintro ⟨-, hs⟩
    omega

/-- Witness for `processJob_failure_policy`: one token, one batch whose
gateway call succeeds reporting one invalid token — the job succeeds
with the corresponding summary. -/
theorem processJob_failure_policy_witness :
    processJob (fun _ _ => Except.ok ["x"]) ["a"]
        { title := "T", text := "B", metadata := none }
      = Except.ok
          { totalTokens := 1, successfulBatches := 1, failedBatches := 0,
            invalidTokens := 1 } := by
  have hc : chunks ["a"] = [["a"]] :=
    chunks_of_short _ (by simp) (by decide)
  have h := (processJob_failure_policy (fun _ _ => Except.ok ["x"]) ["a"]
    { title := "T", text := "B", metadata := none }
    (by simp) (by decide) (by decide)).2
  rw [hc] at h
  exact h (by decide)

/-!
## Claim C10 — batch partition invariants
-/

/-- Claim C10: the batches are the consecutive slices of the token list
of size `batchSize` (the last possibly shorter): their concatenation is
the original token list (order and duplicates preserved), every batch
is non-empty and at most `batchSize` long, all batches except the last
are exactly `batchSize` long, and the number of batches is
`⌈totalTokens / batchSize⌉`; whenever the processor returns a summary,
`totalTokens` is the length of the job's token list and
`successfulBatches + failedBatches` equals the number of batches. -/
theorem processJob_batch_partition
    (sendBatch : Nat → List String → Except Unit (List String))
    (tokens : List String) (payload : JobPayload) :
    (chunks tokens).flatten = tokens
    ∧ (∀ b ∈ chunks tokens, b ≠ [] ∧ b.length ≤ batchSize)
    ∧ (∀ b ∈ (chunks tokens).dropLast, b.length = batchSize)
    ∧ (chunks tokens).length = (tokens.length + (batchSize - 1)) / batchSize
    ∧ (∀ s, processJob sendBatch tokens payload = Except.ok s →
        s.totalTokens = tokens.length
        ∧ s.successfulBatches + s.failedBatches
            = (tokens.length + (batchSize - 1)) / batchSize) := by
  refine ⟨chunks_flatten tokens, chunks_mem tokens, chunks_dropLast tokens,
    chunks_length tokens, ?_⟩
  intro s hok
  simp only [processJob] at hok
  split at hok
  · simp at hok
  · split at hok
    · simp at hok
    · split at hok
      · simp at hok
      · rw [Except.ok.injEq] at hok
        subst hok
        refine ⟨rfl, ?_⟩
        rw [runBatches_counts sendBatch 0 (chunks tokens)]
        exact chunks_length tokens

/-- Witness for `processJob_batch_partition`: two tokens form a single
batch; the flatten, size and summary equations hold concretely. -/
theorem processJob_batch_partition_witness :
    (chunks ["a", "b"]).flatten = ["a", "b"]
    ∧ (["a", "b"] ≠ [] ∧ ["a", "b"].length ≤ batchSize)
    ∧ (1 : Nat) + 0 = (2 + (batchSize - 1)) / batchSize := by
  have happ := processJob_batch_partition
    (fun _ _ => Except.ok ([] : List String)) ["a", "b"]
    { title := "T", text := "B", metadata := none }
  have hok : processJob (fun _ _ => Except.ok ([] : List String)) ["a", "b"]
      { title := "T", text := "B", metadata := none }
      = Except.ok ⟨2, 1, 0, 0⟩ := by
    rw [processJob_single_batch _ _ _ (by simp) (by decide) (by decide)
      (by decide)]
    rfl
  have hmem : ["a", "b"] ∈ chunks ["a", "b"] := by
    rw [chunks_of_short _ (by simp) (by decide)]
    exact List.mem_singleton.mpr rfl
  have hsum := happ.2.2.2.2 ⟨2, 1, 0, 0⟩ hok
  exact ⟨happ.1, happ.2.1 ["a", "b"] hmem, hsum.2⟩

/-!
## Claim C8 — APNs invalid-token classification
-/

theorem zip_self_map {β : Type} (f : String → β) :
    ∀ l : List String, l.zip (l.map f) = l.map (fun x => (x, f x))
  | [] => rfl
  | x :: xs => by simp [zip_self_map f xs]

theorem foldl_append_eq {α β : Type} (g : α → List β) :
    ∀ (l : List α) (acc : List β),
      l.foldl (fun a x => a ++ g x) acc = acc ++ (l.map g).flatten
  | [], acc => by simp
  | x :: xs, acc => by
    simp only [List.foldl_cons, List.map_cons, List.flatten_cons]
    rw [foldl_append_eq g xs (acc ++ g x)]
    simp [List.append_assoc]

theorem apns_fold_mem (resOf : String → ApnsResult) (tokens : List String)
    (t : String) :
    t ∈ (tokens.zip (tokens.map resOf)).foldl
        (fun acc p => acc ++ p.2.failed.filterMap (fun f =>
          if f.status = "410" || f.status = "400" then some p.1 else none))
        ([] : List String)
      ↔ t ∈ tokens ∧ ∃ f ∈ (resOf t).failed,
          f.status = "410" ∨ f.status = "400" := by
  rw [zip_self_map, foldl_append_eq]
  simp only [List.nil_append, List.map_map, List.mem_flatten, List.mem_map,
    Function.comp_apply, Bool.or_eq_true, decide_eq_true_eq]
  simp only [exists_exists_and_eq_and, List.mem_filterMap,
    Option.ite_none_right_eq_some, Option.some.injEq]
  constructor
  · rintro ⟨x, hx, f, hf, hcond, rfl⟩
    exact ⟨hx, f, hf, hcond⟩
  · rintro ⟨ht, f, hf, hcond⟩
    exact ⟨t, ht, f, hf, hcond, rfl⟩

/-- Claim C8: on a non-empty batch of genuine (non-empty string) tokens
with a valid payload and a configured bundle id, `sendAPNsBatch`
resolves with an invalid-token list containing exactly the input tokens
for which the provider's response carries a failure entry with status
"410" or "400"; a token whose failures all carry other statuses — and a
token whose send rejected in transport (replaced by a synthesised "500"
entry) — is left out of the invalid set. -/
theorem sendAPNsBatch_classifies (provider : String → Except Unit ApnsResult)
    (bundleId : String) (tokens : List String) (payload : JobPayload)
    (htok : tokens ≠ []) (h1 : payload.title ≠ "") (h2 : payload.text ≠ "")
    (hb : bundleId ≠ "") (hne : ∀ t ∈ tokens, t ≠ "") :
    (∃ invalid, sendAPNsBatch provider bundleId tokens payload
        = Except.ok invalid)
    ∧ (∀ invalid,
        sendAPNsBatch provider bundleId tokens payload = Except.ok invalid →
        ∀ t, t ∈ invalid ↔ t ∈ tokens ∧
          ∃ r, provider t = Except.ok r ∧
            ∃ f ∈ r.failed, f.status = "410" ∨ f.status = "400") := by
  have hlen0 : ¬ tokens.length = 0 := by
    simpa [List.length_eq_zero] using htok
  have heq : sendAPNsBatch provider bundleId tokens payload
      = Except.ok ((tokens.zip (tokens.map (fun token =>
          if token = "" then ApnsResult.mk [{ status := "400", device := token }]
          else
            match provider token with
            | .ok r => r
            | .error _ =>
              ApnsResult.mk [{ status := "500", device := token }]))).foldl
        (fun acc p => acc ++ p.2.failed.filterMap (fun f =>
          if f.status = "410" || f.status = "400" then some p.1 else none))
        []) := by
    simp only [sendAPNsBatch, if_neg hlen0]
    rw [if_neg (by simp [h1, h2]), if_neg hb]
  refine ⟨⟨_, heq⟩, ?_⟩
  intro invalid hinv t
  rw [heq, Except.ok.injEq] at hinv
  subst hinv
  rw [apns_fold_mem]
  constructor
  · rintro ⟨htm, f, hf, hcond⟩
    refine ⟨htm, ?_⟩
    rw [if_neg (hne t htm)] at hf
    cases hp : provider t with
    | ok r =>
      rw [hp] at hf
      exact ⟨r, rfl, f, hf, hcond⟩
    | error e =>
      rw [hp] at hf
      simp only [List.mem_singleton] at hf
      subst hf
      simp at hcond
  · rintro ⟨htm, r, hp, f, hf, hcond⟩
    refine ⟨htm, f, ?_, hcond⟩
    rw [if_neg (hne t htm), hp]
    exact hf

/-- Witness for `sendAPNsBatch_classifies`: a provider that reports a
"410" failure for the token "bad" and success for "good" yields an
invalid list containing "bad" and not "good". -/
theorem sendAPNsBatch_classifies_witness :
    ("bad" ∈ (["bad"] : List String))
    ∧ ¬ ("good" ∈ (["bad"] : List String)) := by
  have h := (sendAPNsBatch_classifies
    (fun t => if t = "bad"
      then Except.ok (ApnsResult.mk [{ status := "410", device := t }])
      else Except.ok (ApnsResult.mk []))
    "app" ["good", "bad"] { title := "T", text := "B", metadata := none }
    (by simp) (by decide) (by decide) (by decide)
    (by decide)).2 ["bad"] (by rfl)
  constructor
  · exact (h "bad").mpr ⟨by simp, ApnsResult.mk [{ status := "410", device := "bad" }],
      rfl, { status := "410", device := "bad" }, by simp, Or.inl rfl⟩
  · intro hmem
    obtain ⟨-, r, hr, f, hf, -⟩ := (h "good").mp hmem
    rw [show (if "good" = "bad"
        then Except.ok (ApnsResult.mk [{ status := "410", device := "good" }])
        else Except.ok (ApnsResult.mk ([] : List ApnsFailure)))
      = Except.ok (ApnsResult.mk []) by rfl] at hr
    rw [Except.ok.injEq] at hr
    subst hr
    simp at hf

/-!
## Claim C9 — registration upsert idempotence
-/

theorem upsert_countP_eq_one (r : TokenDoc) :
    ∀ db : List TokenDoc,
      db.countP (fun d => d.token = r.token) ≤ 1 →
      (upsertByToken db r).countP (fun d => d.token = r.token) = 1
  | [], _ => by simp [upsertByToken]
  | d :: ds, h => by
    simp only [upsertByToken]
    by_cases hd : d.token = r.token
    · rw [if_pos hd]
      have hds : ds.countP (fun x => x.token = r.token) = 0 := by
        rw [List.countP_cons] at h
        simp [hd] at h
        exact List.countP_eq_zero.mpr (by simpa using h)
      simp [List.countP_cons, hds]
    · rw [if_neg hd]
      have h' : ds.countP (fun x => x.token = r.token) ≤ 1 := by
        rw [List.countP_cons] at h
        omega
      have hrec := upsert_countP_eq_one r ds h'
      simp [List.countP_cons, hd, hrec]

theorem upsert_mem_token (r : TokenDoc) :
    ∀ db : List TokenDoc,
      db.countP (fun d => d.token = r.token) ≤ 1 →
      ∀ d ∈ upsertByToken db r, d.token = r.token → d = r
  | [], _ => by simp [upsertByToken]
  | d0 :: ds, h => by
    intro d hd hdt
    simp only [upsertByToken] at hd
    by_cases h0 : d0.token = r.token
    · rw [if_pos h0] at hd
      rcases List.mem_cons.mp hd with rfl | hmem
      · rfl
      · have hds : ds.countP (fun x => x.token = r.token) = 0 := by
          rw [List.countP_cons] at h
          simp [h0] at h
          exact List.countP_eq_zero.mpr (by simpa using h)
        have := List.countP_eq_zero.mp hds d hmem
        simp [hdt] at this
    · rw [if_neg h0] at hd
      rcases List.mem_cons.mp hd with rfl | hmem
      · exact absurd hdt h0
      · have h' : ds.countP (fun x => x.token = r.token) ≤ 1 := by
          rw [List.countP_cons] at h
          omega
        exact upsert_mem_token r ds h' d hmem hdt

/-- Claim C9: registration is an upsert keyed on the (trimmed) device
token. Starting from any database respecting the unique index (at most
one document per token), registering the same token twice with
different tag sets leaves exactly one document carrying that token, and
its tag set is the one supplied by the second registration. -/
theorem register_upsert_latest_tags (now₁ now₂ : Nat) (db : List TokenDoc)
    (t : String) (p₁ p₂ : Option String) (tags₁ tags₂ : List String)
    (l₁ l₂ : Option String)
    (huniq : db.countP (fun d => d.token = jsTrim t) ≤ 1)
    (ht : jsTrim t ≠ "")
    (hp₁ : platformValid p₁ = true) (hp₂ : platformValid p₂ = true)
    (hl₁ : localeValid l₁ = true) (hl₂ : localeValid l₂ = true) :
    registerToken now₁ db (some t) p₁ (some tags₁) l₁
      = Except.ok (upsertByToken db (registrationDoc now₁ t p₁ (some tags₁) l₁),
          registrationDoc now₁ t p₁ (some tags₁) l₁)
    ∧ registerToken now₂
        (upsertByToken db (registrationDoc now₁ t p₁ (some tags₁) l₁))
        (some t) p₂ (some tags₂) l₂
      = Except.ok
          (upsertByToken
            (upsertByToken db (registrationDoc now₁ t p₁ (some tags₁) l₁))
            (registrationDoc now₂ t p₂ (some tags₂) l₂),
          registrationDoc now₂ t p₂ (some tags₂) l₂)
    ∧ (upsertByToken
        (upsertByToken db (registrationDoc now₁ t p₁ (some tags₁) l₁))
        (registrationDoc now₂ t p₂ (some tags₂) l₂)).countP
          (fun d => d.token = jsTrim t) = 1
    ∧ (∀ d ∈ upsertByToken
        (upsertByToken db (registrationDoc now₁ t p₁ (some tags₁) l₁))
        (registrationDoc now₂ t p₂ (some tags₂) l₂),
        d.token = jsTrim t → d.tags = tags₂) := by
  have htne : t ≠ "" := by
    intro h
    subst h
    exact ht rfl
  have hlen : ¬ (jsTrim t).length = 0 := by
    intro h
    apply ht
    cases he : jsTrim t with
    | mk data =>
      rw [he] at h
      simp only [String.length] at h
      rw [List.length_eq_zero] at h
      simp [h]
  have hguard : ¬ ((t = "" || (jsTrim t).length = 0) = true) := by
    simp [htne, hlen]
  have hreg : ∀ (now : Nat) (dbx : List TokenDoc) (p : Option String)
      (tgs : List String) (lc : Option String),
      platformValid p = true → localeValid lc = true →
      registerToken now dbx (some t) p (some tgs) lc
        = Except.ok (upsertByToken dbx (registrationDoc now t p (some tgs) lc),
            registrationDoc now t p (some tgs) lc) := by
    intro now dbx p tgs lc hp hlc
    simp only [registerToken]
    rw [if_neg hguard, if_neg (by simp [hp]), if_neg (by simp [hlc])]
  have hdoc₁ : (registrationDoc now₁ t p₁ (some tags₁) l₁).token = jsTrim t :=
    rfl
  have hdoc₂ : (registrationDoc now₂ t p₂ (some tags₂) l₂).token = jsTrim t :=
    rfl
  have hcnt₁ : (upsertByToken db
      (registrationDoc now₁ t p₁ (some tags₁) l₁)).countP
        (fun d => d.token = jsTrim t) = 1 := by
    have := upsert_countP_eq_one (registrationDoc now₁ t p₁ (some tags₁) l₁)
      db (by rw [hdoc₁]; exact huniq)
    rwa [hdoc₁] at this
  have hcnt₂ : (upsertByToken
      (upsertByToken db (registrationDoc now₁ t p₁ (some tags₁) l₁))
      (registrationDoc now₂ t p₂ (some tags₂) l₂)).countP
        (fun d => d.token = jsTrim t) = 1 := by
    have := upsert_countP_eq_one (registrationDoc now₂ t p₂ (some tags₂) l₂)
      (upsertByToken db (registrationDoc now₁ t p₁ (some tags₁) l₁))
      (by rw [hdoc₂]; omega)
    rwa [hdoc₂] at this
  refine ⟨hreg now₁ db p₁ tags₁ l₁ hp₁ hl₁,
    hreg now₂ _ p₂ tags₂ l₂ hp₂ hl₂, hcnt₂, ?_⟩
  intro d hd hdt
  have hde : d = registrationDoc now₂ t p₂ (some tags₂) l₂ := by
    apply upsert_mem_token (registrationDoc now₂ t p₂ (some tags₂) l₂)
      (upsertByToken db (registrationDoc now₁ t p₁ (some tags₁) l₁))
      (by rw [hdoc₂]; omega) d hd
    rw [hdoc₂]
    exact hdt
  rw [hde]
  rfl

/-- Witness for `register_upsert_latest_tags`: registering "tok1" with
tags ["x"] and again with tags ["y"] on an empty registry yields one
document whose tags are ["y"]. -/
theorem register_upsert_latest_tags_witness :
    registerToken 0 [] (some "tok1") none (some ["x"]) none
      = Except.ok ([TokenDoc.mk (jsTrim "tok1") "ios" ["x"] "en" 0],
          TokenDoc.mk (jsTrim "tok1") "ios" ["x"] "en" 0)
    ∧ ([TokenDoc.mk (jsTrim "tok1") "ios" ["y"] "en" 5]).countP
        (fun d => d.token = jsTrim "tok1") = 1 := by
  have h := register_upsert_latest_tags 0 5 [] "tok1" none none ["x"] ["y"]
    none none (by simp) (by decide) rfl rfl rfl rfl
  refine ⟨h.1, ?_⟩
  have h21 := h.2.2.1
  have hdb : upsertByToken (upsertByToken ([] : List TokenDoc)
        (registrationDoc 0 "tok1" none (some ["x"]) none))
        (registrationDoc 5 "tok1" none (some ["y"]) none)
      = [TokenDoc.mk (jsTrim "tok1") "ios" ["y"] "en" 5] := rfl
  rw [hdb] at h21
  exact h21

/-!
## Lemmas about the locale grouping and the dispatch route
-/

theorem any_key_eq (acc : List (String × List String)) (k : String) :
    acc.any (fun p => p.1 = k) = true ↔ k ∈ acc.map Prod.fst := by
  simp only [List.any_eq_true, List.mem_map, decide_eq_true_eq]

theorem recAppend_keys (acc : List (String × List String)) (k v : String) :
    (recAppend acc k v).map Prod.fst = addKey (acc.map Prod.fst) k := by
  by_cases hk : k ∈ acc.map Prod.fst
  · rw [recAppend, if_pos ((any_key_eq acc k).mpr hk), addKey, if_pos hk,
      List.map_map]
    apply List.map_congr_left
    intro p hp
    by_cases hpk : p.1 = k
    · simp [hpk]
    · simp [hpk]
  · have hany : ¬ acc.any (fun p => p.1 = k) = true := fun hc =>
      hk ((any_key_eq acc k).mp hc)
    rw [recAppend, if_neg hany, addKey, if_neg hk]
    simp

theorem addKey_mem (init : List String) (l x : String) :
    x ∈ addKey init l ↔ x ∈ init ∨ x = l := by
  by_cases hl : l ∈ init
  · rw [addKey, if_pos hl]
    constructor
    · exact Or.inl
    · rintro (h | rfl)
      · exact h
      · exact hl
  · rw [addKey, if_neg hl]
    simp

theorem seenFold_mem :
    ∀ (ls init : List String) (x : String),
      x ∈ seenFold init ls ↔ x ∈ init ∨ x ∈ ls
  | [], init, x => by simp [seenFold]
  | l :: ls, init, x => by
    have := seenFold_mem ls (addKey init l) x
    simp only [seenFold, List.foldl_cons] at this ⊢
    rw [this, addKey_mem]
    simp only [List.mem_cons]
    tauto

theorem addKey_nodup (init : List String) (l : String) (h : init.Nodup) :
    (addKey init l).Nodup := by
  by_cases hl : l ∈ init
  · rwa [addKey, if_pos hl]
  · rw [addKey, if_neg hl]
    simp [List.nodup_append, h, hl]

theorem seenFold_nodup :
    ∀ (ls init : List String), init.Nodup → (seenFold init ls).Nodup
  | [], init, h => h
  | l :: ls, init, h => by
    simp only [seenFold, List.foldl_cons]
    exact seenFold_nodup ls (addKey init l) (addKey_nodup init l h)

theorem nodup_length_eq_of_mem_iff (l₁ l₂ : List String) (h₁ : l₁.Nodup)
    (h₂ : l₂.Nodup) (h : ∀ x, x ∈ l₁ ↔ x ∈ l₂) : l₁.length = l₂.length :=
  ((List.perm_ext_iff_of_nodup h₁ h₂).mpr h).length_eq

theorem group_fold_keys :
    ∀ (ts : List TokenDoc) (acc : List (String × List String)),
      ((ts.foldl (fun grouped t =>
          if t.token = "" then grouped
          else recAppend grouped (effLocale t) t.token) acc).map Prod.fst)
        = seenFold (acc.map Prod.fst)
            ((ts.filter (fun t => !(t.token = ""))).map effLocale)
  | [], acc => by simp [seenFold]
  | t :: ts, acc => by
    by_cases h : t.token = ""
    · have hfilter : List.filter (fun t => !decide (t.token = "")) (t :: ts)
          = List.filter (fun t => !decide (t.token = "")) ts := by
        simp [List.filter_cons, h]
      rw [List.foldl_cons,
        show (if t.token = "" then acc
          else recAppend acc (effLocale t) t.token) = acc from if_pos h,
        hfilter]
      exact group_fold_keys ts acc
    · have hfilter : List.filter (fun t => !decide (t.token = "")) (t :: ts)
          = t :: List.filter (fun t => !decide (t.token = "")) ts := by
        simp [List.filter_cons, h]
      rw [List.foldl_cons,
        show (if t.token = "" then acc
            else recAppend acc (effLocale t) t.token)
          = recAppend acc (effLocale t) t.token from if_neg h,
        hfilter, List.map_cons]
      have hrec := group_fold_keys ts (recAppend acc (effLocale t) t.token)
      rw [hrec, recAppend_keys]
      rfl

theorem groupTokensByLocale_keys (ts : List TokenDoc) :
    (groupTokensByLocale ts).map Prod.fst
      = seenFold [] ((ts.filter (fun t => !(t.token = ""))).map effLocale) := by
  have := group_fold_keys ts []
  simpa [groupTokensByLocale] using this

theorem filterMap_job_tokens (lc : List (String × LocaleContent)) :
    ∀ g : List (String × List String),
      ((g.filterMap (fun p =>
          match List.lookup p.1 lc with
          | some c =>
            some (QueueJob.mk p.2 (JobPayload.mk c.title c.text none))
          | none => none)).map QueueJob.tokens)
        = (g.filter (fun p => (List.lookup p.1 lc).isSome)).map Prod.snd
  | [] => rfl
  | p :: g => by
    cases hl : List.lookup p.1 lc with
    | some c =>
      simp [List.filterMap_cons, List.filter_cons, hl,
        filterMap_job_tokens lc g]
    | none =>
      simp [List.filterMap_cons, List.filter_cons, hl,
        filterMap_job_tokens lc g]

theorem filterMap_job_length (lc : List (String × LocaleContent)) :
    ∀ g : List (String × List String),
      (g.filterMap (fun p =>
          match List.lookup p.1 lc with
          | some c =>
            some (QueueJob.mk p.2 (JobPayload.mk c.title c.text none))
          | none => none)).length
        = g.countP (fun p => (List.lookup p.1 lc).isSome)
  | [] => rfl
  | p :: g => by
    cases hl : List.lookup p.1 lc with
    | some c =>
      simp [List.filterMap_cons, List.countP_cons, hl,
        filterMap_job_length lc g]
    | none =>
      simp [List.filterMap_cons, List.countP_cons, hl,
        filterMap_job_length lc g]

/-!
## Claim C1 — dispatch fan-out counts
-/

/-- Claim C1: for a valid dispatch request whose tag query matches at
least one device (all registered devices carrying non-empty tokens),
the 200 response reports `totalUsers` equal to the number of matched
devices, `locales` is a duplicate-free list of exactly the distinct
(effective) locales of the matched devices, `jobsAdded` equals the
number of jobs actually enqueued, and the enqueued jobs are exactly one
per locale that both occurs among the matched devices and has an entry
in `localesContent` — each carrying that locale's full grouped token
list. -/
theorem dispatch_fanout_counts (db : List TokenDoc) (tags : List String)
    (lc : List (String × LocaleContent)) (md : Option Metad)
    (htags : tags ≠ [])
    (hlc : ∀ p ∈ lc, p.2.title ≠ "" ∧ p.2.text ≠ "")
    (hmatch : db.filter (matchesTags tags) ≠ [])
    (htok : ∀ d ∈ db.filter (matchesTags tags), d.token ≠ "") :
    ∃ ks jobs,
      postSend db tags lc md = SendResult.ok
        { message := "Push notification jobs queued successfully",
          totalUsers := (db.filter (matchesTags tags)).length,
          jobsAdded := some jobs.length,
          locales := some ks } jobs
      ∧ ks.Nodup
      ∧ (∀ x, x ∈ ks ↔ x ∈ (db.filter (matchesTags tags)).map effLocale)
      ∧ ks.length
          = ((db.filter (matchesTags tags)).map effLocale).dedup.length
      ∧ jobs.length
          = (((db.filter (matchesTags tags)).map effLocale).dedup.filter
              (fun l => (List.lookup l lc).isSome)).length
      ∧ jobs.map QueueJob.tokens
          = ((groupTokensByLocale (db.filter (matchesTags tags))).filter
              (fun p => (List.lookup p.1 lc).isSome)).map Prod.snd := by
  have hlen : ¬ tags.length = 0 := by
    simpa [List.length_eq_zero] using htags
  have hfind : lc.find? (fun p => p.2.title = "" || p.2.text = "") = none := by
    rw [List.find?_eq_none]
    intro p hp
    simp [(hlc p hp).1, (hlc p hp).2]
  have hmlen : ¬ (db.filter (matchesTags tags)).length = 0 := by
    simpa [List.length_eq_zero] using hmatch
  have hkeys := groupTokensByLocale_keys (db.filter (matchesTags tags))
  have hfself : (db.filter (matchesTags tags)).filter
      (fun t => !(t.token = "")) = db.filter (matchesTags tags) := by
    rw [List.filter_eq_self]
    intro d hd
    simpa using htok d hd
  rw [hfself] at hkeys
  have hknodup : ((groupTokensByLocale
      (db.filter (matchesTags tags))).map Prod.fst).Nodup := by
    rw [hkeys]
    exact seenFold_nodup _ [] (by simp)
  have hkmem : ∀ x, x ∈ (groupTokensByLocale
      (db.filter (matchesTags tags))).map Prod.fst
      ↔ x ∈ (db.filter (matchesTags tags)).map effLocale := by
    intro x
    rw [hkeys, seenFold_mem]
    simp
  refine ⟨(groupTokensByLocale (db.filter (matchesTags tags))).map Prod.fst,
    (groupTokensByLocale (db.filter (matchesTags tags))).filterMap (fun p =>
      match List.lookup p.1 lc with
      | some c => some (QueueJob.mk p.2 (JobPayload.mk c.title c.text none))
      | none => none),
    ?_, hknodup, hkmem, ?_, ?_, ?_⟩
  · simp only [postSend, if_neg hlen, hfind, getTokensByTags,
      generatePayloadRoute]
    rw [if_neg hmlen]
  · exact nodup_length_eq_of_mem_iff _ _ hknodup
      (List.nodup_dedup _) (by
        intro x
        rw [hkmem x, List.mem_dedup])
  · rw [filterMap_job_length lc]
    have hcmap : (groupTokensByLocale (db.filter (matchesTags tags))).countP
        (fun p => (List.lookup p.1 lc).isSome)
        = ((groupTokensByLocale (db.filter (matchesTags tags))).map
            Prod.fst).countP (fun k => (List.lookup k lc).isSome) := by
      rw [List.countP_map]
      rfl
    rw [hcmap, List.countP_eq_length_filter]
    apply nodup_length_eq_of_mem_iff
    · exact List.Nodup.filter _ hknodup
    · exact List.Nodup.filter _ (List.nodup_dedup _)
    · intro x
      rw [List.mem_filter, List.mem_filter, hkmem x, List.mem_dedup]
  · exact filterMap_job_tokens lc _

/-- Witness for `dispatch_fanout_counts`: the spec scenario — three
devices matching tag "sports" with locales en, en, es and content for
en only — yields a duplicate-free locale list and one enqueued job
carrying the full en token list. -/
theorem dispatch_fanout_counts_witness :
    (["en", "es"] : List String).Nodup
    ∧ ([QueueJob.mk ["d1", "d3"] (JobPayload.mk "T" "B" none)].map
        QueueJob.tokens)
      = ((groupTokensByLocale
          (([TokenDoc.mk "d1" "ios" ["sports"] "en" 0,
             TokenDoc.mk "d2" "ios" ["sports"] "es" 0,
             TokenDoc.mk "d3" "ios" ["sports"] "en" 0]).filter
            (matchesTags ["sports"]))).filter
          (fun p =>
            (List.lookup p.1 [("en", LocaleContent.mk "T" "B")]).isSome)).map
        Prod.snd := by
  obtain ⟨ks, jobs, heq, hnodup, hmem, hlenk, hjlen, hjmap⟩ :=
    dispatch_fanout_counts
      [TokenDoc.mk "d1" "ios" ["sports"] "en" 0,
       TokenDoc.mk "d2" "ios" ["sports"] "es" 0,
       TokenDoc.mk "d3" "ios" ["sports"] "en" 0]
      ["sports"] [("en", LocaleContent.mk "T" "B")] none
      (by simp) (by decide) (by decide) (by decide)
  have hev : postSend
      [TokenDoc.mk "d1" "ios" ["sports"] "en" 0,
       TokenDoc.mk "d2" "ios" ["sports"] "es" 0,
       TokenDoc.mk "d3" "ios" ["sports"] "en" 0]
      ["sports"] [("en", LocaleContent.mk "T" "B")] none
      = SendResult.ok
          (SendResponse.mk "Push notification jobs queued successfully" 3
            (some 1) (some ["en", "es"]))
          [QueueJob.mk ["d1", "d3"] (JobPayload.mk "T" "B" none)] := by
    rfl
  rw [hev] at heq
  obtain ⟨hresp, hjobs⟩ := SendResult.ok.inj heq
  have hks : ["en", "es"] = ks := by
    have := congrArg SendResponse.locales hresp
    simpa using this
  subst hks
  subst hjobs
  exact ⟨hnodup, hjmap⟩

/-!
## Claim C3 — response field shape
-/

/-- Claim C3, counterexample. The claim states that every successful
dispatch response has exactly the four fields `message`, `totalUsers`,
`jobsAdded`, `locales`. A valid request whose tag query matches no
device succeeds with a body holding only `message` and `totalUsers`
(src/routes/push-routes.ts empty-result branch): `jobsAdded` and
`locales` are absent. -/
theorem dispatch_empty_response_two_fields :
    postSend [] ["sports"] [("en", LocaleContent.mk "T" "B")] none
      = SendResult.ok
          (SendResponse.mk "No devices found for the specified tags" 0
            none none) []
    ∧ ¬ ((SendResponse.mk "No devices found for the specified tags" 0
            none none).jobsAdded.isSome
        ∧ (SendResponse.mk "No devices found for the specified tags" 0
            none none).locales.isSome) :=
  ⟨rfl, by simp⟩

/-- Claim C3, amended: a successful dispatch response always carries
`message` and `totalUsers`; it carries the `jobsAdded` and `locales`
fields exactly when the tag query matched at least one device
(`totalUsers > 0`) — the empty-result branch responds with only
`message` and `totalUsers`. -/
theorem sendResponse_shape (db : List TokenDoc) (tags : List String)
    (lc : List (String × LocaleContent)) (md : Option Metad)
    (resp : SendResponse) (jobs : List QueueJob)
    (h : postSend db tags lc md = SendResult.ok resp jobs) :
    (resp.jobsAdded.isSome ∧ resp.locales.isSome) ↔ 0 < resp.totalUsers := by
  simp only [postSend] at h
  by_cases h0 : tags.length = 0
  · rw [if_pos h0] at h
    simp at h
  · rw [if_neg h0] at h
    cases hf : lc.find? (fun p => p.2.title = "" || p.2.text = "") with
    | some p =>
      rw [hf] at h
      simp at h
    | none =>
      rw [hf] at h
      simp only [getTokensByTags, if_neg h0] at h
      by_cases hemp : (db.filter (matchesTags tags)).length = 0
      · rw [if_pos hemp] at h
        obtain ⟨hresp, -⟩ := SendResult.ok.inj h
        subst hresp
        simp
      · rw [if_neg hemp] at h
        simp only [generatePayloadRoute, hf] at h
        obtain ⟨hresp, -⟩ := SendResult.ok.inj h
        subst hresp
        simpa using Nat.pos_of_ne_zero hemp

/-- Witness for `sendResponse_shape`: a dispatch matching one device
has both optional fields present and a positive `totalUsers`. -/
theorem sendResponse_shape_witness :
    ((SendResponse.mk "Push notification jobs queued successfully" 1
        (some 1) (some ["en"])).jobsAdded.isSome
      ∧ (SendResponse.mk "Push notification jobs queued successfully" 1
        (some 1) (some ["en"])).locales.isSome)
    ↔ 0 < (SendResponse.mk "Push notification jobs queued successfully" 1
        (some 1) (some ["en"])).totalUsers :=
  sendResponse_shape [TokenDoc.mk "d1" "ios" ["sports"] "en" 0] ["sports"]
    [("en", LocaleContent.mk "T" "B")] none _
    [QueueJob.mk ["d1"] (JobPayload.mk "T" "B" none)] rfl

/-!
## Claim C6 — empty-result dispatch
-/

/-- Claim C6, counterexample. The claim states that a dispatch matching
zero devices responds with `totalUsers = 0` and `jobsAdded = 0`. The
call does succeed with `totalUsers = 0` and enqueues nothing, but the
empty-result branch serialises no `jobsAdded` field at all (the
response is `{message, totalUsers}`), so the response does not report
`jobsAdded = 0`. -/
theorem dispatch_empty_no_jobsAdded_field :
    postSend [TokenDoc.mk "tokA" "ios" ["sports"] "en" 0] ["news"]
        [("en", LocaleContent.mk "T" "B")] none
      = SendResult.ok
          (SendResponse.mk "No devices found for the specified tags" 0
            none none) []
    ∧ (SendResponse.mk "No devices found for the specified tags" 0
        none none).jobsAdded ≠ some 0 :=
  ⟨rfl, by simp⟩

/-- Claim C6, amended: a valid dispatch whose tag query matches zero
devices succeeds (no error), reports `totalUsers = 0`, enqueues no job,
and omits the `jobsAdded` and `locales` fields from the response. -/
theorem dispatch_empty_result (db : List TokenDoc) (tags : List String)
    (lc : List (String × LocaleContent)) (md : Option Metad)
    (htags : tags ≠ [])
    (hlc : ∀ p ∈ lc, p.2.title ≠ "" ∧ p.2.text ≠ "")
    (hempty : db.filter (matchesTags tags) = []) :
    postSend db tags lc md = SendResult.ok
      (SendResponse.mk "No devices found for the specified tags" 0
        none none) [] := by
  have hlen : ¬ tags.length = 0 := by
    simpa [List.length_eq_zero] using htags
  have hfind : lc.find? (fun p => p.2.title = "" || p.2.text = "") = none := by
    rw [List.find?_eq_none]
    intro p hp
    simp [(hlc p hp).1, (hlc p hp).2]
  simp only [postSend, if_neg hlen, hfind, getTokensByTags]
  rw [hempty]
  simp

/-- Witness for `dispatch_empty_result`: a registry holding one device
tagged "sports" queried for "news" yields the two-field zero response
and an empty job list. -/
theorem dispatch_empty_result_witness :
    postSend [TokenDoc.mk "tokB" "ios" ["sports"] "en" 0] ["news"]
        [("es", LocaleContent.mk "T" "B")] none
      = SendResult.ok
          (SendResponse.mk "No devices found for the specified tags" 0
            none none) [] :=
  dispatch_empty_result _ _ _ _ (by simp) (by decide) (by decide)

/-!
## Claim C4 — metadata never reaches the queued jobs
-/

/-- Claim C4: the claim states that the caller-supplied `metadata` is
assembled into each enqueued job's payload. In the source,
`generatePayload` declares a single parameter and returns
`{ locales: localesContent }`, so the `metadata` argument passed by the
route (src/routes/push-routes.ts line 74) is ignored and
`payload.metadata` is `undefined`; every queued job therefore carries
no metadata, whatever the caller sent. The repository's own test
(src/tests/routes.test.ts "should generate payload correctly") expects
`generatePayload` to return `{ locales, metadata: {} }`, which the
shipped helper contradicts. -/
theorem job_metadata_dropped (db : List TokenDoc) (tags : List String)
    (lc : List (String × LocaleContent)) (md : Option Metad)
    (resp : SendResponse) (jobs : List QueueJob)
    (h : postSend db tags lc md = SendResult.ok resp jobs) :
    ∀ j ∈ jobs, j.payload.metadata = none := by
  simp only [postSend] at h
  by_cases h0 : tags.length = 0
  · rw [if_pos h0] at h
    simp at h
  · rw [if_neg h0] at h
    cases hf : lc.find? (fun p => p.2.title = "" || p.2.text = "") with
    | some p =>
      rw [hf] at h
      simp at h
    | none =>
      rw [hf] at h
      simp only [getTokensByTags, if_neg h0] at h
      by_cases hemp : (db.filter (matchesTags tags)).length = 0
      · rw [if_pos hemp] at h
        obtain ⟨-, hjobs⟩ := SendResult.ok.inj h
        subst hjobs
        simp
      · rw [if_neg hemp] at h
        simp only [generatePayloadRoute, hf] at h
        obtain ⟨-, hjobs⟩ := SendResult.ok.inj h
        subst hjobs
        intro j hj
        rw [List.mem_filterMap] at hj
        obtain ⟨p, -, hsome⟩ := hj
        cases hl : List.lookup p.1 lc with
        | some c =>
          rw [hl] at hsome
          rw [Option.some.injEq] at hsome
          subst hsome
          rfl
        | none =>
          rw [hl] at hsome
          simp at hsome

/-- Witness for `job_metadata_dropped`: a dispatch sent with
`metadata = {"k": "v"}` enqueues a job whose payload metadata is
absent. -/
theorem job_metadata_dropped_witness :
    (QueueJob.mk ["d1"] (JobPayload.mk "T" "B" none)).payload.metadata
      = none :=
  job_metadata_dropped [TokenDoc.mk "d1" "ios" ["sports"] "en" 0]
    ["sports"] [("en", LocaleContent.mk "T" "B")] (some [("k", "v")])
    (SendResponse.mk "Push notification jobs queued successfully" 1
      (some 1) (some ["en"]))
    [QueueJob.mk ["d1"] (JobPayload.mk "T" "B" none)] rfl
    (QueueJob.mk ["d1"] (JobPayload.mk "T" "B" none))
    (List.mem_singleton.mpr rfl)
